import Mathlib

/-!
# Verification of the ATS resume data-access layer

Shallow embedding of `src/lib/supabase.ts` (connection pool, resilient call
executor, resume repository, reachability probe) and of the retry/backoff
variant (`calculateDelay`, `withRetry`) found alongside
`src/hooks/useConnectionRecovery.ts`, together with proofs of the spec's
testable properties.

The remote relational store is modelled as an explicit state (`DB`) of four
row lists; each remote primitive returns a supabase-style `(data, error)`
pair and may be made to fail by a fault schedule carried in the `Backend`
state, mirroring transient network failures. `uuidv4()` is modelled as a
fresh-name supply (`nextUuid` counter); `new Date().toISOString()` as the
ambient `now` field.
-/

namespace ATSResume

/-- A JavaScript `Error`: only its message is observable to this layer. -/
structure Failure where
  msg : String
deriving DecidableEq

/-! ## Domain types (`src/types`, as used by `src/lib/supabase.ts`) -/

structure Experience where
  company : String
  position : String
  startDate : String
  endDate : String
  description : String
deriving DecidableEq

structure Education where
  institution : String
  degree : String
  fieldOfStudy : String
  startDate : String
  endDate : String
  description : String
deriving DecidableEq

structure Certification where
  name : String
  issuer : String
  date : String
  description : String
deriving DecidableEq

/-- The resume aggregate. `id` is optional: `saveResume` generates one when it
is absent (or empty, `resume.id || uuidv4()`). -/
structure Resume where
  id : Option String
  name : String
  email : String
  phone : String
  location : String
  linkedin : String
  website : String
  summary : String
  skills : List String
  experience : List Experience
  education : List Education
  certifications : List Certification
deriving DecidableEq

/-! ## Stored rows (tables `resumes`, `resume_experiences`, `resume_education`,
`resume_certifications`) -/

structure ResumeRow where
  id : String
  name : String
  email : String
  phone : String
  location : String
  linkedin : String
  website : String
  summary : String
  skills : List String
  created_at : String
deriving DecidableEq

structure ExperienceRow where
  id : String
  resume_id : String
  company : String
  position : String
  start_date : String
  end_date : String
  description : String
  order_index : Nat
deriving DecidableEq

structure EducationRow where
  id : String
  resume_id : String
  institution : String
  degree : String
  field_of_study : String
  start_date : String
  end_date : String
  description : String
  order_index : Nat
deriving DecidableEq

structure CertificationRow where
  id : String
  resume_id : String
  name : String
  issuer : String
  date : String
  description : String
  order_index : Nat
deriving DecidableEq

/-- The external relational store. -/
structure DB where
  resumes : List ResumeRow
  resume_experiences : List ExperienceRow
  resume_education : List EducationRow
  resume_certifications : List CertificationRow
deriving DecidableEq

/-- Ambient state threaded through an operation: the store, a fault schedule
(the `n`-th issued remote primitive fails with the given error, modelling a
transient network failure or a backend-reported error), the number of remote
primitives issued so far, the `uuidv4()` fresh-name supply and the clock. -/
structure Backend where
  db : DB
  faults : Nat → Option Failure
  calls : Nat
  nextUuid : Nat
  now : String

/-- Result monad of one remote operation: short-circuits on a thrown error
(`if (error) throw error`) while always exposing the evolved backend state. -/
def DbM (α : Type) : Type := Backend → Except Failure α × Backend

def DbM.pure {α : Type} (a : α) : DbM α := fun b => (.ok a, b)

def DbM.bind {α β : Type} (m : DbM α) (f : α → DbM β) : DbM β := fun b =>
  match m b with
  | (.ok a, b') => f a b'
  | (.error e, b') => (.error e, b')

instance : Monad DbM where
  pure := DbM.pure
  bind := DbM.bind

/-- Supabase-style query result: `{ data, error }`. -/
structure QueryOutcome (α : Type) where
  data : Option α
  error : Option Failure
deriving DecidableEq

/-- Issue one remote primitive. The fault schedule may make it fail;
otherwise the pure table operation `f` runs on the store (a failing `f`
models a backend-reported error such as `.single()` on zero rows). -/
def rawQuery {α : Type} (f : DB → Except Failure (DB × α)) :
    Backend → QueryOutcome α × Backend := fun b =>
  let b' : Backend := { b with calls := b.calls + 1 }
  match b.faults b.calls with
  | some e => ({ data := none, error := some e }, b')
  | none =>
    match f b.db with
    | .ok (db2, a) => ({ data := some a, error := none }, { b' with db := db2 })
    | .error e => ({ data := none, error := some e }, b')

/-- A remote primitive followed by the ubiquitous `if (error) throw error`. -/
def query {α : Type} (f : DB → Except Failure (DB × α)) : DbM α := fun b =>
  match rawQuery f b with
  | (out, b') =>
    match out.error with
    | some e => (.error e, b')
    | none =>
      match out.data with
      | some a => (.ok a, b')
      | none => (.error { msg := "no data" }, b')

/-- A remote primitive whose error field is left for the caller to inspect
(used where the source destructures only `{ data }`). -/
def rawQ {α : Type} (f : DB → Except Failure (DB × α)) : DbM (QueryOutcome α) :=
  fun b => let p := rawQuery f b; (.ok p.1, p.2)

/-- `uuidv4()`: fresh-name supply. -/
def uuidString (n : Nat) : String := "uuid-" ++ toString n

def genUuid : DbM String := fun b =>
  (.ok (uuidString b.nextUuid), { b with nextUuid := b.nextUuid + 1 })

/-- `new Date().toISOString()`. -/
def getNow : DbM String := fun b => (.ok b.now, b)

/-! ## Table operations of the external store

`.order(key, { ascending: true })` is modelled by an insertion sort over a
boolean "is before" relation; the key columns under sort are unique per
filtered result, so any correct sort yields the same list. -/

def insertBy {α : Type} (le : α → α → Bool) (x : α) : List α → List α
  | [] => [x]
  | y :: ys => if le x y then x :: y :: ys else y :: insertBy le x ys

def sortBy {α : Type} (le : α → α → Bool) : List α → List α
  | [] => []
  | x :: xs => insertBy le x (sortBy le xs)

def sortByKey {α : Type} (key : α → Nat) : List α → List α :=
  sortBy (fun a b => key a ≤ key b)

/-- `.from('resumes').upsert(resumeData, { onConflict: 'id' })`. -/
def upsertResumeRow (row : ResumeRow) (db : DB) : DB :=
  if db.resumes.any (fun x => x.id = row.id) then
    { db with resumes := db.resumes.map (fun x => if x.id = row.id then row else x) }
  else
    { db with resumes := db.resumes ++ [row] }

/-- `.from('resumes').select('*').eq('id', id).single()`: errors unless the
filter matches exactly one row. -/
def selectResumeSingle (rid : String) (db : DB) : Except Failure ResumeRow :=
  match db.resumes.filter (fun x => decide (x.id = rid)) with
  | [r] => .ok r
  | _ => .error { msg := "PGRST116: zero or many rows returned for single()" }

/-- `.from('resumes').select('*').order('created_at', { ascending: false })`. -/
def selectResumesByCreatedDesc (db : DB) : List ResumeRow :=
  sortBy (fun a b => decide (b.created_at ≤ a.created_at)) db.resumes

/-- `.from('resumes').delete().eq('id', id)`; the store cascades the delete
to the child tables (per the source comment, cascade is the store's duty). -/
def deleteResumeRow (rid : String) (db : DB) : DB :=
  { resumes := db.resumes.filter (fun x => decide (¬ x.id = rid)),
    resume_experiences := db.resume_experiences.filter (fun x => decide (¬ x.resume_id = rid)),
    resume_education := db.resume_education.filter (fun x => decide (¬ x.resume_id = rid)),
    resume_certifications := db.resume_certifications.filter (fun x => decide (¬ x.resume_id = rid)) }

def deleteExperiencesFor (rid : String) (db : DB) : DB :=
  { db with resume_experiences :=
      db.resume_experiences.filter (fun x => decide (¬ x.resume_id = rid)) }

def deleteEducationFor (rid : String) (db : DB) : DB :=
  { db with resume_education :=
      db.resume_education.filter (fun x => decide (¬ x.resume_id = rid)) }

def deleteCertificationsFor (rid : String) (db : DB) : DB :=
  { db with resume_certifications :=
      db.resume_certifications.filter (fun x => decide (¬ x.resume_id = rid)) }

def insertExperiences (rows : List ExperienceRow) (db : DB) : DB :=
  { db with resume_experiences := db.resume_experiences ++ rows }

def insertEducation (rows : List EducationRow) (db : DB) : DB :=
  { db with resume_education := db.resume_education ++ rows }

def insertCertifications (rows : List CertificationRow) (db : DB) : DB :=
  { db with resume_certifications := db.resume_certifications ++ rows }

def selectExperiencesOrdered (rid : String) (db : DB) : List ExperienceRow :=
  sortByKey (fun x => x.order_index)
    (db.resume_experiences.filter (fun x => decide (x.resume_id = rid)))

def selectEducationOrdered (rid : String) (db : DB) : List EducationRow :=
  sortByKey (fun x => x.order_index)
    (db.resume_education.filter (fun x => decide (x.resume_id = rid)))

def selectCertificationsOrdered (rid : String) (db : DB) : List CertificationRow :=
  sortByKey (fun x => x.order_index)
    (db.resume_certifications.filter (fun x => decide (x.resume_id = rid)))

/-! ## Child-row construction

`collection.map((entry, index) => ({ id: uuidv4(), ..., order_index: index }))`:
a map with the element index as order key and a fresh uuid per row. -/

/-- `List.map` handing the callback the element index, starting at `i`. -/
def mapIdx {α β : Type} (f : Nat → α → β) : Nat → List α → List β
  | _, [] => []
  | i, a :: as => f i a :: mapIdx f (i + 1) as

def mkExperienceRow (rid : String) (base : Nat) (ix : Nat) (e : Experience) :
    ExperienceRow :=
  { id := uuidString (base + ix), resume_id := rid, company := e.company,
    position := e.position, start_date := e.startDate, end_date := e.endDate,
    description := e.description, order_index := ix }

def mkExperienceRows (rid : String) (base : Nat) (l : List Experience) :
    List ExperienceRow :=
  mapIdx (mkExperienceRow rid base) 0 l

def mkEducationRow (rid : String) (base : Nat) (ix : Nat) (e : Education) :
    EducationRow :=
  { id := uuidString (base + ix), resume_id := rid, institution := e.institution,
    degree := e.degree, field_of_study := e.fieldOfStudy,
    start_date := e.startDate, end_date := e.endDate,
    description := e.description, order_index := ix }

def mkEducationRows (rid : String) (base : Nat) (l : List Education) :
    List EducationRow :=
  mapIdx (mkEducationRow rid base) 0 l

def mkCertificationRow (rid : String) (base : Nat) (ix : Nat) (c : Certification) :
    CertificationRow :=
  { id := uuidString (base + ix), resume_id := rid, name := c.name,
    issuer := c.issuer, date := c.date, description := c.description,
    order_index := ix }

def mkCertificationRows (rid : String) (base : Nat) (l : List Certification) :
    List CertificationRow :=
  mapIdx (mkCertificationRow rid base) 0 l

/-- Build the child rows of one collection, consuming one fresh uuid per row. -/
def genExperienceRows (rid : String) (l : List Experience) :
    DbM (List ExperienceRow) := fun b =>
  (.ok (mkExperienceRows rid b.nextUuid l), { b with nextUuid := b.nextUuid + l.length })

def genEducationRows (rid : String) (l : List Education) :
    DbM (List EducationRow) := fun b =>
  (.ok (mkEducationRows rid b.nextUuid l), { b with nextUuid := b.nextUuid + l.length })

def genCertificationRows (rid : String) (l : List Certification) :
    DbM (List CertificationRow) := fun b =>
  (.ok (mkCertificationRows rid b.nextUuid l), { b with nextUuid := b.nextUuid + l.length })

/-- Row-to-entry mapping used when reading a resume back. -/
def toExperienceEntry (e : ExperienceRow) : Experience :=
  { company := e.company, position := e.position, startDate := e.start_date,
    endDate := e.end_date, description := e.description }

def toEducationEntry (e : EducationRow) : Education :=
  { institution := e.institution, degree := e.degree,
    fieldOfStudy := e.field_of_study, startDate := e.start_date,
    endDate := e.end_date, description := e.description }

def toCertificationEntry (c : CertificationRow) : Certification :=
  { name := c.name, issuer := c.issuer, date := c.date,
    description := c.description }

/-! ## Resilient call executor (`executeWithPermanentConnection`)

`for (attempt = 0; attempt < maxRetries; attempt++) { try { return await
operation(client) } catch (e) { lastError = e; if (attempt < maxRetries - 1)
delay-and-continue } } throw lastError` — every error is retried; the loop is
embedded by recursion on the remaining attempts, also counting the attempts
actually made. The per-attempt `getClient()` rotation does not affect the
store and is modelled separately by the `Pool` component. -/

def executeWPCGo {α : Type} (op : DbM α) :
    Nat → Failure → Backend → (Except Failure α × Backend) × Nat
  | 0, lastError, b => ((.error lastError, b), 0)
  | r + 1, _, b =>
    match op b with
    | (.ok a, b2) => ((.ok a, b2), 1)
    | (.error e, b2) =>
      let rest := executeWPCGo op r e b2
      (rest.1, rest.2 + 1)

def executeWithPermanentConnection {α : Type} (op : DbM α)
    (operationName : String) (maxRetries : Nat) : DbM α := fun b =>
  let _ := operationName
  (executeWPCGo op maxRetries { msg := "Unknown error occurred" } b).1

/-- Number of attempts the executor makes on a given backend. -/
def executeAttemptCount {α : Type} (op : DbM α) (maxRetries : Nat)
    (b : Backend) : Nat :=
  (executeWPCGo op maxRetries { msg := "Unknown error occurred" } b).2

/-! ## Resume repository -/

/-- `const resumeId = resume.id || uuidv4()` (`undefined` and `''` are falsy). -/
def resolveId (resume : Resume) (b : Backend) : String :=
  if resume.id.getD "" = "" then uuidString b.nextUuid else resume.id.getD ""

/-- The parent `resumeData` record assembled by `saveResume`. -/
def profileRow (resume : Resume) (rid : String) (nowS : String) : ResumeRow :=
  { id := rid, name := resume.name, email := resume.email, phone := resume.phone,
    location := resume.location, linkedin := resume.linkedin,
    website := resume.website, summary := resume.summary,
    skills := resume.skills, created_at := nowS }

/-- Body of `saveResume`: upsert the parent, then for each non-empty child
collection delete the existing rows for this resume and insert the new rows
tagged with dense order keys. -/
def saveResumeOp (resume : Resume) : DbM String := do
  let given := resume.id.getD ""
  let resumeId ← if given = "" then genUuid else pure given
  let nowS ← getNow
  let resumeData := profileRow resume resumeId nowS
  query (fun db => .ok (upsertResumeRow resumeData db, ()))
  if resume.experience.length > 0 then
    query (fun db => .ok (deleteExperiencesFor resumeId db, ()))
    let experienceData ← genExperienceRows resumeId resume.experience
    query (fun db => .ok (insertExperiences experienceData db, ()))
  if resume.education.length > 0 then
    query (fun db => .ok (deleteEducationFor resumeId db, ()))
    let educationData ← genEducationRows resumeId resume.education
    query (fun db => .ok (insertEducation educationData db, ()))
  if resume.certifications.length > 0 then
    query (fun db => .ok (deleteCertificationsFor resumeId db, ()))
    let certificationData ← genCertificationRows resumeId resume.certifications
    query (fun db => .ok (insertCertifications certificationData db, ()))
  pure resumeId

structure SaveResult where
  id : String
  error : Option Failure
deriving DecidableEq

/-- `saveResume`: runs the body through the executor, converting the outcome
to a `{ id, error }` pair (`{ id: '', error }` on failure). -/
def saveResume (resume : Resume) : Backend → SaveResult × Backend := fun b =>
  match executeWithPermanentConnection (saveResumeOp resume) "saveResume" 5 b with
  | (.ok i, b') => ({ id := i, error := none }, b')
  | (.error e, b') => ({ id := "", error := some e }, b')

/-- Body of `getResume`: parent row via `.single()`, then the three child
collections ordered by `order_index` ascending, assembled into the aggregate. -/
def getResumeOp (rid : String) : DbM Resume := do
  let resumeData ← query (fun db =>
    match selectResumeSingle rid db with
    | .ok r => .ok (db, r)
    | .error e => .error e)
  let experienceData ← query (fun db => .ok (db, selectExperiencesOrdered rid db))
  let educationData ← query (fun db => .ok (db, selectEducationOrdered rid db))
  let certificationData ← query (fun db => .ok (db, selectCertificationsOrdered rid db))
  pure {
    id := some resumeData.id,
    name := resumeData.name, email := resumeData.email, phone := resumeData.phone,
    location := resumeData.location, linkedin := resumeData.linkedin,
    website := resumeData.website, summary := resumeData.summary,
    skills := resumeData.skills,
    experience := experienceData.map toExperienceEntry,
    education := educationData.map toEducationEntry,
    certifications := certificationData.map toCertificationEntry }

structure GetResult where
  resume : Option Resume
  error : Option Failure
deriving DecidableEq

def getResume (rid : String) : Backend → GetResult × Backend := fun b =>
  match executeWithPermanentConnection (getResumeOp rid) "getResume" 5 b with
  | (.ok r, b') => ({ resume := some r, error := none }, b')
  | (.error e, b') => ({ resume := none, error := some e }, b')

/-- Body of `getAllResumes`: all parents by creation time descending, then per
parent the three child fetches whose error field is ignored
(`(experienceData || [])`). -/
def getAllResumesOp : DbM (List Resume) := do
  let resumesData ← query (fun db => .ok (db, selectResumesByCreatedDesc db))
  resumesData.mapM (fun resumeData => do
    let expOut ← rawQ (fun db => .ok (db, selectExperiencesOrdered resumeData.id db))
    let eduOut ← rawQ (fun db => .ok (db, selectEducationOrdered resumeData.id db))
    let certOut ← rawQ (fun db => .ok (db, selectCertificationsOrdered resumeData.id db))
    pure {
      id := some resumeData.id,
      name := resumeData.name, email := resumeData.email, phone := resumeData.phone,
      location := resumeData.location, linkedin := resumeData.linkedin,
      website := resumeData.website, summary := resumeData.summary,
      skills := resumeData.skills,
      experience := (expOut.data.getD []).map toExperienceEntry,
      education := (eduOut.data.getD []).map toEducationEntry,
      certifications := (certOut.data.getD []).map toCertificationEntry })

structure GetAllResult where
  resumes : List Resume
  error : Option Failure
deriving DecidableEq

def getAllResumes : Backend → GetAllResult × Backend := fun b =>
  match executeWithPermanentConnection getAllResumesOp "getAllResumes" 5 b with
  | (.ok rs, b') => ({ resumes := rs, error := none }, b')
  | (.error e, b') => ({ resumes := [], error := some e }, b')

structure DeleteResult where
  error : Option Failure
deriving DecidableEq

def deleteResumeOp (rid : String) : DbM Unit :=
  query (fun db => .ok (deleteResumeRow rid db, ()))

def deleteResume (rid : String) : Backend → DeleteResult × Backend := fun b =>
  match executeWithPermanentConnection (deleteResumeOp rid) "deleteResume" 5 b with
  | (.ok _, b') => ({ error := none }, b')
  | (.error e, b') => ({ error := some e }, b')

/-! ## Reachability probe (`testConnection`)

`try { const { error } = await client.from('resumes').select('count').limit(1);
return !error } catch { return false }`. The probe query's outcome is external
input: either it completes with a `{ data, error }` pair or the awaited
promise rejects (`Except.error`). -/

def testConnection {α : Type} (probe : Except Failure (QueryOutcome α)) : Bool :=
  match probe with
  | .ok res => res.error.isNone
  | .error _ => false

/-! ## Connection pool (`SupabaseConnectionPool`) -/

/-- Handles are identified by their creation index at the factory. -/
abbrev Client := Nat

def poolSize : Nat := 5

structure Pool where
  clients : List Client
  currentIndex : Nat

/-- `initializePool`: push `poolSize` factory-fresh clients. -/
def initializePool (firstId : Nat) : List Client :=
  (List.range poolSize).map (fun i => firstId + i)

/-- Pool state right after the constructor ran. -/
def mkPool : Pool := { clients := initializePool 0, currentIndex := 0 }

/-- `getClient()`: hand out `clients[currentIndex]`, advance modulo `poolSize`. -/
def getClient (p : Pool) : Client × Pool :=
  (p.clients.getD p.currentIndex 0,
   { p with currentIndex := (p.currentIndex + 1) % poolSize })

/-- Handle returned by the `n`-th `getClient()` call (zero-indexed). -/
def nthClient (p : Pool) : Nat → Client
  | 0 => (getClient p).1
  | n + 1 => nthClient (getClient p).2 n

/-- Host-environment interval timers active at a point in time. -/
structure TimerEnv where
  active : List Nat

/-- `clearInterval(h)`: cancels the timer; already-cancelled handles are
no-ops. -/
def clearInterval (env : TimerEnv) (h : Nat) : TimerEnv :=
  { active := env.active.filter (fun x => decide (¬ x = h)) }

/-- The pool together with its `healthCheckInterval` field (the handle of the
background health-check timer, if one was ever started). -/
structure PoolSys where
  pool : Pool
  healthCheckInterval : Option Nat

/-- `destroy()`: `if (this.healthCheckInterval) clearInterval(...)` — the
field itself is never cleared. -/
def destroy (s : PoolSys) (env : TimerEnv) : PoolSys × TimerEnv :=
  match s.healthCheckInterval with
  | some h => (s, clearInterval env h)
  | none => (s, env)

/-- Module-level `cleanup()`: `connectionPool.destroy()`. -/
def cleanup (s : PoolSys) (env : TimerEnv) : PoolSys × TimerEnv := destroy s env

/-! ## Classification + exponential-backoff executor variant
(`calculateDelay` / `withRetry`, the spec's §4.2 executor) -/

def RETRY_CONFIG_maxRetries : Nat := 3
def RETRY_CONFIG_baseDelay : Nat := 1000
def RETRY_CONFIG_maxDelay : Nat := 5000

/-- `Math.min(baseDelay * Math.pow(2, attempt), maxDelay)`. -/
def calculateDelay (attempt : Nat) : Nat :=
  let delay := RETRY_CONFIG_baseDelay * 2 ^ attempt
  min delay RETRY_CONFIG_maxDelay

/-- `message.toLowerCase()` (ASCII case fold, as relevant to the indicators). -/
def lowerStr (s : String) : String := String.mk (s.data.map Char.toLower)

def isPrefixOfCl : List Char → List Char → Bool
  | [], _ => true
  | _ :: _, [] => false
  | a :: as, b :: bs => a = b && isPrefixOfCl as bs

def hasSubstrCl : List Char → List Char → Bool
  | [], needle => needle.isEmpty
  | h :: t, needle => isPrefixOfCl needle (h :: t) || hasSubstrCl t needle

/-- `hay.includes(needle)`. -/
def strIncludes (hay needle : String) : Bool := hasSubstrCl hay.data needle.data

/-- The transient-network classification of `withRetry`:
`errorMessage.includes('connection') || ... || errorMessage.includes('504')`
over the lowercased message. -/
def isRetryable (e : Failure) : Bool :=
  let errorMessage := lowerStr e.msg
  strIncludes errorMessage "connection" ||
  strIncludes errorMessage "timeout" ||
  strIncludes errorMessage "network" ||
  strIncludes errorMessage "fetch" ||
  strIncludes errorMessage "refused" ||
  strIncludes errorMessage "502" ||
  strIncludes errorMessage "503" ||
  strIncludes errorMessage "504"

/-- Loop body of `withRetry`, from attempt number `attempt` on. The operation
is indexed by the attempt number; besides the outcome, the list of attempt
numbers tried and the list of backoff delays slept are returned.
Source loop: `for (attempt = 0; attempt <= maxRetries; attempt++) { try
{ return await operation() } catch (e) { lastError = e; if (attempt ===
maxRetries) break; if (!isRetryable) throw e; await sleep(calculateDelay(
attempt)) } } throw lastError`. -/
def withRetryGo {α : Type} (op : Nat → Except Failure α) (maxRetries : Nat)
    (attempt : Nat) : Except Failure α × List Nat × List Nat :=
  match op attempt with
  | .ok v => (.ok v, [attempt], [])
  | .error e =>
    if attempt = maxRetries then (.error e, [attempt], [])
    else if h : attempt < maxRetries then
      if isRetryable e then
        let rest := withRetryGo op maxRetries (attempt + 1)
        (rest.1, attempt :: rest.2.1, calculateDelay attempt :: rest.2.2)
      else (.error e, [attempt], [])
    else (.error e, [attempt], [])
termination_by maxRetries - attempt

def withRetry {α : Type} (op : Nat → Except Failure α) :
    Except Failure α × List Nat × List Nat :=
  withRetryGo op RETRY_CONFIG_maxRetries 0

/-- Pure description of the store state `saveResumeOp` leaves behind on a
fault-free run, with `i` the resolved identifier and `base` the value of the
uuid supply after the identifier was resolved. -/
def savedDB (r : Resume) (i : String) (base : Nat) (nowS : String) (db : DB) : DB :=
  let db1 := upsertResumeRow (profileRow r i nowS) db
  let db2 := if r.experience.length > 0 then
      insertExperiences (mkExperienceRows i base r.experience)
        (deleteExperiencesFor i db1)
    else db1
  let db3 := if r.education.length > 0 then
      insertEducation (mkEducationRows i (base + r.experience.length) r.education)
        (deleteEducationFor i db2)
    else db2
  if r.certifications.length > 0 then
    insertCertifications
      (mkCertificationRows i (base + r.experience.length + r.education.length)
        r.certifications)
      (deleteCertificationsFor i db3)
  else db3

/-- Value of the uuid supply after `saveResume` resolved the identifier. -/
def childBase (r : Resume) (b : Backend) : Nat :=
  if r.id.getD "" = "" then b.nextUuid + 1 else b.nextUuid

/-! # Helper lemmas -/

theorem run_bind {α β : Type} (m : DbM α) (f : α → DbM β) (b : Backend) :
    (m >>= f) b =
      match m b with
      | (.ok a, b') => f a b'
      | (.error e, b') => (.error e, b') := rfl

theorem run_pure {α : Type} (a : α) (b : Backend) :
    (pure a : DbM α) b = (.ok a, b) := rfl

theorem insertBy_of_head {α : Type} (le : α → α → Bool) (x : α) (l : List α)
    (h : ∀ y ∈ l.head?, le x y = true) : insertBy le x l = x :: l := by
  cases l with
  | nil => rfl
  | cons y ys => simp [insertBy, h y rfl]

theorem sortBy_eq_self {α : Type} (le : α → α → Bool) (l : List α)
    (h : List.Pairwise (fun a b => le a b = true) l) : sortBy le l = l := by
  induction l with
  | nil => rfl
  | cons x xs ih =>
    rcases h with - | ⟨hx, hxs⟩
    rw [sortBy, ih hxs]
    exact insertBy_of_head le x xs (fun y hy => by
      cases xs with
      | nil => simp at hy
      | cons z zs => exact (Option.mem_some_iff.mp hy) ▸ hx z (by simp))

theorem sortByKey_eq_self {α : Type} (key : α → Nat) (l : List α)
    (h : List.Pairwise (fun a b => key a ≤ key b) l) : sortByKey key l = l := by
  refine sortBy_eq_self _ l ?_
  exact h.imp (fun hab => by simpa using hab)

theorem mapIdx_map_payload {α β γ : Type} (f : Nat → α → β) (g : β → γ)
    (r : α → γ) (h : ∀ i a, g (f i a) = r a) :
    ∀ (i : Nat) (l : List α), (mapIdx f i l).map g = l.map r := by
  intro i l
  induction l generalizing i with
  | nil => rfl
  | cons a as ih => simp [mapIdx, h, ih]

theorem mapIdx_map_key {α β : Type} (f : Nat → α → β) (k : β → Nat)
    (h : ∀ i a, k (f i a) = i) :
    ∀ (i : Nat) (l : List α), (mapIdx f i l).map k = List.range' i l.length := by
  intro i l
  induction l generalizing i with
  | nil => rfl
  | cons a as ih => simp [mapIdx, h, ih, List.range'_succ]

theorem mapIdx_key_lower {α β : Type} (f : Nat → α → β) (k : β → Nat)
    (h : ∀ i a, k (f i a) = i) :
    ∀ (i : Nat) (l : List α) x, x ∈ mapIdx f i l → i ≤ k x := by
  intro i l
  induction l generalizing i with
  | nil => intro x hx; simp [mapIdx] at hx
  | cons a as ih =>
    intro x hx
    rcases List.mem_cons.mp hx with rfl | hx
    · simp [h]
    · exact Nat.le_of_succ_le (ih (i + 1) x hx)

theorem mapIdx_pairwise_key {α β : Type} (f : Nat → α → β) (k : β → Nat)
    (h : ∀ i a, k (f i a) = i) :
    ∀ (i : Nat) (l : List α),
      List.Pairwise (fun a b => k a ≤ k b) (mapIdx f i l) := by
  intro i l
  induction l generalizing i with
  | nil => exact List.Pairwise.nil
  | cons a as ih =>
    refine List.Pairwise.cons (fun x hx => ?_) (ih (i + 1))
    rw [h]
    exact Nat.le_of_succ_le (mapIdx_key_lower f k h (i + 1) as x hx)

theorem mapIdx_all {α β : Type} (f : Nat → α → β) (P : β → Prop)
    (h : ∀ i a, P (f i a)) :
    ∀ (i : Nat) (l : List α) x, x ∈ mapIdx f i l → P x := by
  intro i l
  induction l generalizing i with
  | nil => intro x hx; simp [mapIdx] at hx
  | cons a as ih =>
    intro x hx
    rcases List.mem_cons.mp hx with rfl | hx
    · exact h i a
    · exact ih (i + 1) x hx

theorem filter_anti_append {α : Type} (p : α → Prop) [DecidablePred p]
    (l m : List α) (h : ∀ x ∈ m, p x) :
    ((l.filter fun x => decide (¬ p x)) ++ m).filter (fun x => decide (p x))
      = m := by
  rw [List.filter_append]
  have h1 : ((l.filter fun x => decide (¬ p x)).filter fun x => decide (p x))
      = [] := by
    rw [List.filter_filter]
    refine List.filter_eq_nil_iff.mpr (fun a _ => ?_)
    by_cases hp : p a <;> simp [hp]
  have h2 : (m.filter fun x => decide (p x)) = m :=
    List.filter_eq_self.mpr (fun x hx => by simpa using h x hx)
  rw [h1, h2, List.nil_append]

theorem filter_map_replace (row : ResumeRow) (i : String) (hr : row.id = i)
    (l : List ResumeRow) :
    ((l.map fun x => if x.id = row.id then row else x).filter
        fun x => decide (x.id = i))
      = (l.filter fun x => decide (x.id = i)).map (fun _ => row) := by
  have hri : decide (row.id = i) = true := by simp [hr]
  induction l with
  | nil => rfl
  | cons y ys ih =>
    by_cases hy : y.id = row.id
    · have hyi : decide (y.id = i) = true := by simp [hr ▸ hy]
      simp only [List.map_cons, if_pos hy, List.filter_cons, hri, hyi,
        if_true, List.map_cons, ih]
    · have hyi : decide (y.id = i) = false := by
        simp only [decide_eq_false_iff_not]
        exact fun hcon => hy (hr ▸ hcon)
      simp only [List.map_cons, if_neg hy, List.filter_cons, hyi,
        Bool.false_eq_true, if_false, ih]

theorem upsert_select_single (row : ResumeRow) (i : String) (db : DB)
    (hr : row.id = i)
    (h : (db.resumes.filter fun x => decide (x.id = i)).length ≤ 1) :
    selectResumeSingle i (upsertResumeRow row db) = .ok row := by
  unfold upsertResumeRow selectResumeSingle
  by_cases hany : db.resumes.any (fun x => x.id = row.id) = true
  · rw [if_pos hany]
    simp only []
    rw [filter_map_replace row i hr]
    obtain ⟨x, hx, hxid⟩ := List.any_eq_true.mp hany
    have hxi : x.id = i := hr ▸ (by simpa using hxid)
    have hmem : x ∈ db.resumes.filter (fun x => decide (x.id = i)) :=
      List.mem_filter.mpr ⟨hx, by simp [hxi]⟩
    cases hfil : db.resumes.filter (fun x => decide (x.id = i)) with
    | nil =>
      rw [hfil] at hmem
      simp at hmem
    | cons y ys =>
      cases ys with
      | nil => simp
      | cons z t =>
        rw [hfil] at h
        simp at h
  · rw [if_neg hany]
    simp only []
    have hnil : db.resumes.filter (fun x => decide (x.id = i)) = [] := by
      refine List.filter_eq_nil_iff.mpr fun a ha => ?_
      intro hcon
      have hai : a.id = row.id := hr.symm ▸ (by simpa using hcon)
      exact hany (List.any_eq_true.mpr ⟨a, ha, by simp [hai]⟩)
    rw [List.filter_append, hnil]
    simp [hr]

theorem executeWPC_first_ok {α : Type} (op : DbM α) (name : String) (m : Nat)
    (b : Backend) (a : α) (hm : 0 < m) (h : (op b).1 = .ok a) :
    executeWithPermanentConnection op name m b = op b := by
  obtain ⟨n, rfl⟩ := Nat.exists_eq_succ_of_ne_zero (Nat.pos_iff_ne_zero.mp hm)
  rcases hop : op b with ⟨res, b2⟩
  rw [hop] at h
  simp only [] at h
  subst h
  simp [executeWithPermanentConnection, executeWPCGo, hop]

theorem saveResumeOp_run (r : Resume) (b : Backend)
    (hf : b.faults = fun _ => none) :
    (saveResumeOp r b).1 = .ok (resolveId r b)
    ∧ ((saveResumeOp r b).2).db =
        savedDB r (resolveId r b) (childBase r b) b.now b.db
    ∧ ((saveResumeOp r b).2).faults = b.faults := by
  by_cases h1 : r.id.getD "" = "" <;>
  rcases Nat.eq_zero_or_pos r.experience.length with h2 | h2 <;>
  rcases Nat.eq_zero_or_pos r.education.length with h3 | h3 <;>
  rcases Nat.eq_zero_or_pos r.certifications.length with h4 | h4 <;>
    simp [saveResumeOp, resolveId, childBase, savedDB, run_bind, run_pure,
      query, rawQuery, genUuid, getNow, genExperienceRows, genEducationRows,
      genCertificationRows, hf, h1, h2, h3, h4]

/-- The aggregate `getResumeOp` assembles from a parent row and the store. -/
def readBack (rid : String) (row : ResumeRow) (db : DB) : Resume :=
  { id := some row.id, name := row.name, email := row.email,
    phone := row.phone, location := row.location, linkedin := row.linkedin,
    website := row.website, summary := row.summary, skills := row.skills,
    experience := (selectExperiencesOrdered rid db).map toExperienceEntry,
    education := (selectEducationOrdered rid db).map toEducationEntry,
    certifications :=
      (selectCertificationsOrdered rid db).map toCertificationEntry }

theorem saveResume_run (r : Resume) (b : Backend)
    (hf : b.faults = fun _ => none) :
    (saveResume r b).1 = { id := resolveId r b, error := none }
    ∧ (saveResume r b).2.db =
        savedDB r (resolveId r b) (childBase r b) b.now b.db
    ∧ (saveResume r b).2.faults = b.faults := by
  obtain ⟨h1, h2, h3⟩ := saveResumeOp_run r b hf
  have hex := executeWPC_first_ok (saveResumeOp r) "saveResume" 5 b
    (resolveId r b) (by omega) h1
  rcases hop : saveResumeOp r b with ⟨res, b2⟩
  rw [hop] at h1 h2 h3 hex
  simp only [] at h1 h2 h3
  subst h1
  simp [saveResume, hex, h2, h3]

theorem getResumeOp_run (rid : String) (b : Backend) (row : ResumeRow)
    (hf : b.faults = fun _ => none)
    (hs : selectResumeSingle rid b.db = .ok row) :
    (getResumeOp rid b).1 = .ok (readBack rid row b.db) := by
  simp [getResumeOp, readBack, run_bind, run_pure, query, rawQuery, hf, hs]

theorem getResume_run (rid : String) (b : Backend) (row : ResumeRow)
    (hf : b.faults = fun _ => none)
    (hs : selectResumeSingle rid b.db = .ok row) :
    (getResume rid b).1
      = { resume := some (readBack rid row b.db), error := none } := by
  have h1 := getResumeOp_run rid b row hf hs
  have hex := executeWPC_first_ok (getResumeOp rid) "getResume" 5 b _
    (by omega) h1
  rcases hop : getResumeOp rid b with ⟨res, b2⟩
  rw [hop] at h1 hex
  simp only [] at h1
  subst h1
  simp [getResume, hex]

/-! Projections of `savedDB` per table. -/

theorem savedDB_resumes (r : Resume) (i : String) (base : Nat) (nowS : String)
    (db : DB) :
    (savedDB r i base nowS db).resumes =
      (upsertResumeRow (profileRow r i nowS) db).resumes := by
  rcases Nat.eq_zero_or_pos r.experience.length with h2 | h2 <;>
  rcases Nat.eq_zero_or_pos r.education.length with h3 | h3 <;>
  rcases Nat.eq_zero_or_pos r.certifications.length with h4 | h4 <;>
    simp [savedDB, insertExperiences, insertEducation, insertCertifications,
      deleteExperiencesFor, deleteEducationFor, deleteCertificationsFor,
      h2, h3, h4]

theorem savedDB_experiences (r : Resume) (i : String) (base : Nat)
    (nowS : String) (db : DB) :
    (savedDB r i base nowS db).resume_experiences =
      if r.experience.length > 0 then
        (db.resume_experiences.filter fun x => decide (¬ x.resume_id = i))
          ++ mkExperienceRows i base r.experience
      else db.resume_experiences := by
  have hu : (upsertResumeRow (profileRow r i nowS) db).resume_experiences
      = db.resume_experiences := by
    unfold upsertResumeRow
    split <;> rfl
  rcases Nat.eq_zero_or_pos r.experience.length with h2 | h2 <;>
  rcases Nat.eq_zero_or_pos r.education.length with h3 | h3 <;>
  rcases Nat.eq_zero_or_pos r.certifications.length with h4 | h4 <;>
    simp [savedDB, insertExperiences, insertEducation, insertCertifications,
      deleteExperiencesFor, deleteEducationFor, deleteCertificationsFor,
      h2, h3, h4, hu]

theorem savedDB_education (r : Resume) (i : String) (base : Nat)
    (nowS : String) (db : DB) :
    (savedDB r i base nowS db).resume_education =
      if r.education.length > 0 then
        (db.resume_education.filter fun x => decide (¬ x.resume_id = i))
          ++ mkEducationRows i (base + r.experience.length) r.education
      else db.resume_education := by
  have hu : (upsertResumeRow (profileRow r i nowS) db).resume_education
      = db.resume_education := by
    unfold upsertResumeRow
    split <;> rfl
  rcases Nat.eq_zero_or_pos r.experience.length with h2 | h2 <;>
  rcases Nat.eq_zero_or_pos r.education.length with h3 | h3 <;>
  rcases Nat.eq_zero_or_pos r.certifications.length with h4 | h4 <;>
    simp [savedDB, insertExperiences, insertEducation, insertCertifications,
      deleteExperiencesFor, deleteEducationFor, deleteCertificationsFor,
      h2, h3, h4, hu]

theorem savedDB_certifications (r : Resume) (i : String) (base : Nat)
    (nowS : String) (db : DB) :
    (savedDB r i base nowS db).resume_certifications =
      if r.certifications.length > 0 then
        (db.resume_certifications.filter fun x => decide (¬ x.resume_id = i))
          ++ mkCertificationRows i (base + r.experience.length
              + r.education.length) r.certifications
      else db.resume_certifications := by
  have hu : (upsertResumeRow (profileRow r i nowS) db).resume_certifications
      = db.resume_certifications := by
    unfold upsertResumeRow
    split <;> rfl
  rcases Nat.eq_zero_or_pos r.experience.length with h2 | h2 <;>
  rcases Nat.eq_zero_or_pos r.education.length with h3 | h3 <;>
  rcases Nat.eq_zero_or_pos r.certifications.length with h4 | h4 <;>
    simp [savedDB, insertExperiences, insertEducation, insertCertifications,
      deleteExperiencesFor, deleteEducationFor, deleteCertificationsFor,
      h2, h3, h4, hu]

theorem select_experiences_savedDB (r : Resume) (i : String) (base : Nat)
    (nowS : String) (db : DB)
    (h0 : r.experience = [] →
      db.resume_experiences.filter (fun x => decide (x.resume_id = i)) = []) :
    selectExperiencesOrdered i (savedDB r i base nowS db)
      = mkExperienceRows i base r.experience := by
  rw [selectExperiencesOrdered, savedDB_experiences]
  cases hl : r.experience with
  | nil =>
    simp only [hl, List.length_nil, gt_iff_lt, lt_self_iff_false, if_false]
    rw [h0 hl]
    rfl
  | cons e es =>
    have hgt : r.experience.length > 0 := by simp [hl]
    rw [hl] at hgt
    rw [if_pos hgt]
    rw [filter_anti_append (fun x => x.resume_id = i) db.resume_experiences
      (mkExperienceRows i base (e :: es))
      (fun x hx => mapIdx_all (mkExperienceRow i base)
        (fun row => row.resume_id = i) (fun _ _ => rfl) 0 (e :: es) x hx)]
    exact sortByKey_eq_self _ _
      (mapIdx_pairwise_key (mkExperienceRow i base)
        (fun row => row.order_index) (fun _ _ => rfl) 0 _)

theorem select_education_savedDB (r : Resume) (i : String) (base : Nat)
    (nowS : String) (db : DB)
    (h0 : r.education = [] →
      db.resume_education.filter (fun x => decide (x.resume_id = i)) = []) :
    selectEducationOrdered i (savedDB r i base nowS db)
      = mkEducationRows i (base + r.experience.length) r.education := by
  rw [selectEducationOrdered, savedDB_education]
  cases hl : r.education with
  | nil =>
    simp only [hl, List.length_nil, gt_iff_lt, lt_self_iff_false, if_false]
    rw [h0 hl]
    rfl
  | cons e es =>
    have hgt : r.education.length > 0 := by simp [hl]
    rw [hl] at hgt
    rw [if_pos hgt]
    rw [filter_anti_append (fun x => x.resume_id = i) db.resume_education
      (mkEducationRows i (base + r.experience.length) (e :: es))
      (fun x hx => mapIdx_all (mkEducationRow i (base + r.experience.length))
        (fun row => row.resume_id = i) (fun _ _ => rfl) 0 (e :: es) x hx)]
    exact sortByKey_eq_self _ _
      (mapIdx_pairwise_key (mkEducationRow i (base + r.experience.length))
        (fun row => row.order_index) (fun _ _ => rfl) 0 _)

theorem select_certifications_savedDB (r : Resume) (i : String) (base : Nat)
    (nowS : String) (db : DB)
    (h0 : r.certifications = [] →
      db.resume_certifications.filter (fun x => decide (x.resume_id = i)) = []) :
    selectCertificationsOrdered i (savedDB r i base nowS db)
      = mkCertificationRows i (base + r.experience.length + r.education.length)
          r.certifications := by
  rw [selectCertificationsOrdered, savedDB_certifications]
  cases hl : r.certifications with
  | nil =>
    simp only [hl, List.length_nil, gt_iff_lt, lt_self_iff_false, if_false]
    rw [h0 hl]
    rfl
  | cons e es =>
    have hgt : r.certifications.length > 0 := by simp [hl]
    rw [hl] at hgt
    rw [if_pos hgt]
    rw [filter_anti_append (fun x => x.resume_id = i) db.resume_certifications
      (mkCertificationRows i (base + r.experience.length + r.education.length)
        (e :: es))
      (fun x hx => mapIdx_all
        (mkCertificationRow i (base + r.experience.length + r.education.length))
        (fun row => row.resume_id = i) (fun _ _ => rfl) 0 (e :: es) x hx)]
    exact sortByKey_eq_self _ _
      (mapIdx_pairwise_key
        (mkCertificationRow i (base + r.experience.length + r.education.length))
        (fun row => row.order_index) (fun _ _ => rfl) 0 _)

theorem mkExperienceRows_entries (i : String) (base : Nat)
    (l : List Experience) :
    (mkExperienceRows i base l).map toExperienceEntry = l := by
  rw [mkExperienceRows,
    mapIdx_map_payload (mkExperienceRow i base) toExperienceEntry id
      (fun _ _ => rfl)]
  exact List.map_id l

theorem mkEducationRows_entries (i : String) (base : Nat)
    (l : List Education) :
    (mkEducationRows i base l).map toEducationEntry = l := by
  rw [mkEducationRows,
    mapIdx_map_payload (mkEducationRow i base) toEducationEntry id
      (fun _ _ => rfl)]
  exact List.map_id l

theorem mkCertificationRows_entries (i : String) (base : Nat)
    (l : List Certification) :
    (mkCertificationRows i base l).map toCertificationEntry = l := by
  rw [mkCertificationRows,
    mapIdx_map_payload (mkCertificationRow i base) toCertificationEntry id
      (fun _ _ => rfl)]
  exact List.map_id l

theorem mkExperienceRows_keys (i : String) (base : Nat) (l : List Experience) :
    (mkExperienceRows i base l).map (fun row => row.order_index)
      = List.range l.length := by
  rw [mkExperienceRows,
    mapIdx_map_key (mkExperienceRow i base) (fun row => row.order_index)
      (fun _ _ => rfl), List.range_eq_range']

theorem mkEducationRows_keys (i : String) (base : Nat) (l : List Education) :
    (mkEducationRows i base l).map (fun row => row.order_index)
      = List.range l.length := by
  rw [mkEducationRows,
    mapIdx_map_key (mkEducationRow i base) (fun row => row.order_index)
      (fun _ _ => rfl), List.range_eq_range']

theorem mkCertificationRows_keys (i : String) (base : Nat)
    (l : List Certification) :
    (mkCertificationRows i base l).map (fun row => row.order_index)
      = List.range l.length := by
  rw [mkCertificationRows,
    mapIdx_map_key (mkCertificationRow i base) (fun row => row.order_index)
      (fun _ _ => rfl), List.range_eq_range']

theorem executeWPCGo_count_all_fail {α : Type} (op : DbM α)
    (err : Backend → Failure) (h : ∀ b', (op b').1 = .error (err b')) :
    ∀ (m : Nat) (last : Failure) (b : Backend),
      (executeWPCGo op m last b).2 = m := by
  intro m
  induction m with
  | zero => intro last b; rfl
  | succ k ih =>
    intro last b
    rcases hop : op b with ⟨res, b2⟩
    have hres : res = .error (err b) := by
      have hb := h b
      rw [hop] at hb
      simpa using hb
    subst hres
    simp [executeWPCGo, hop, ih (err b) b2]

theorem executeWPCGo_lastErr_all_fail {α : Type} (op : DbM α)
    (err : Backend → Failure) (h : ∀ b', (op b').1 = .error (err b')) :
    ∀ (k : Nat) (last : Failure) (b : Backend),
      (executeWPCGo op (k + 1) last b).1.1 =
        .error (err ((fun x => (op x).2)^[k] b)) := by
  intro k
  induction k with
  | zero =>
    intro last b
    rcases hop : op b with ⟨res, b2⟩
    have hres : res = .error (err b) := by
      have hb := h b
      rw [hop] at hb
      simpa using hb
    subst hres
    simp [executeWPCGo, hop]
  | succ k ih =>
    intro last b
    rcases hop : op b with ⟨res, b2⟩
    have hres : res = .error (err b) := by
      have hb := h b
      rw [hop] at hb
      simpa using hb
    subst hres
    have hb2 : (fun x => (op x).2) b = b2 := by simp [hop]
    have step1 : (executeWPCGo op (k + 1 + 1) last b).1.1
        = (executeWPCGo op (k + 1) (err b) b2).1.1 := by
      simp [executeWPCGo, hop]
    rw [step1, Function.iterate_succ_apply, hop]
    exact ih (err b) b2

theorem withRetryGo_attempts_head {α : Type} (op : Nat → Except Failure α)
    (m a : Nat) : ∃ t, (withRetryGo op m a).2.1 = a :: t := by
  rw [withRetryGo]
  cases hop : op a with
  | ok v => exact ⟨[], rfl⟩
  | error e =>
    dsimp only
    split_ifs <;> exact ⟨_, rfl⟩

theorem withRetryGo_prefix {α : Type} (op : Nat → Except Failure α)
    (errs : Nat → Failure) (m : Nat) :
    ∀ (k a : Nat),
      (∀ j, a ≤ j → j < a + k →
        op j = .error (errs j) ∧ isRetryable (errs j) = true) →
      a + k ≤ m →
      withRetryGo op m a =
        ((withRetryGo op m (a + k)).1,
         List.range' a k ++ (withRetryGo op m (a + k)).2.1,
         (List.range' a k).map calculateDelay
           ++ (withRetryGo op m (a + k)).2.2) := by
  intro k
  induction k with
  | zero => intro a h hle; simp
  | succ k ih =>
    intro a h hle
    obtain ⟨hopa, hreta⟩ := h a (le_refl a) (by omega)
    have hane : ¬ a = m := by omega
    have ha : a < m := by omega
    have harith : a + 1 + k = a + (k + 1) := by omega
    have ih' := ih (a + 1) (fun j hj1 hj2 => h j (by omega) (by omega))
      (by omega)
    rw [harith] at ih'
    rw [withRetryGo, hopa]
    simp only [if_neg hane, dif_pos ha, hreta, if_true]
    rw [ih']
    have hr : List.range' a (k + 1) = a :: List.range' (a + 1) k :=
      List.range'_succ a k 1
    rw [hr]
    simp

theorem nthClient_formula :
    ∀ (n : Nat) (p : Pool), p.clients.length = poolSize →
      p.currentIndex < poolSize →
      nthClient p n = p.clients.getD ((p.currentIndex + n) % poolSize) 0
      ∧ (p.currentIndex + n) % poolSize < p.clients.length := by
  intro n
  induction n with
  | zero =>
    intro p hlen hidx
    constructor
    · rw [nthClient]
      rw [Nat.add_zero, Nat.mod_eq_of_lt hidx]
      rfl
    · rw [Nat.add_zero, Nat.mod_eq_of_lt hidx, hlen]
      exact hidx
  | succ n ih =>
    intro p hlen hidx
    have hidx2 : (p.currentIndex + 1) % poolSize < poolSize :=
      Nat.mod_lt _ (by simp [poolSize])
    have ih' := ih { p with currentIndex := (p.currentIndex + 1) % poolSize }
      hlen hidx2
    have harith : ((p.currentIndex + 1) % poolSize + n) % poolSize
        = (p.currentIndex + (n + 1)) % poolSize := by
      rw [Nat.mod_add_mod]
      congr 1
      omega
    rw [nthClient]
    constructor
    · rw [show (getClient p).2
          = { p with currentIndex := (p.currentIndex + 1) % poolSize }
        from rfl]
      rw [ih'.1, harith]
    · rw [← harith]
      exact ih'.2

/-! # Concrete fixtures used by witnesses and counterexamples -/

def emptyDB : DB :=
  { resumes := [], resume_experiences := [], resume_education := [],
    resume_certifications := [] }

def cleanBackend : Backend :=
  { db := emptyDB, faults := fun _ => none, calls := 0, nextUuid := 0,
    now := "2026-01-01T00:00:00.000Z" }

def faultyBackend : Backend :=
  { cleanBackend with faults := fun _ => some { msg := "TypeError: Failed to fetch" } }

def expAcme : Experience :=
  { company := "Acme", position := "Dev", startDate := "2020-01",
    endDate := "2021-01", description := "built things" }

def expGlobex : Experience :=
  { company := "Globex", position := "Eng", startDate := "2021-02",
    endDate := "2022-03", description := "shipped things" }

def eduPoly : Education :=
  { institution := "Poly", degree := "BSc", fieldOfStudy := "CS",
    startDate := "2016", endDate := "2020", description := "studied" }

def certCloud : Certification :=
  { name := "Cloud Cert", issuer := "CloudCo", date := "2022",
    description := "certified" }

def resumeA : Resume :=
  { id := some "a", name := "Nia", email := "nia@example.com",
    phone := "555", location := "Pune", linkedin := "li", website := "w",
    summary := "sum", skills := ["ts", "sql"],
    experience := [expAcme, expGlobex], education := [eduPoly],
    certifications := [certCloud] }

def resumeANoChildren : Resume :=
  { resumeA with experience := [], education := [], certifications := [] }

def staleExpRow : ExperienceRow :=
  { id := "old-1", resume_id := "a", company := "OldCo", position := "Old",
    start_date := "2010", end_date := "2011", description := "stale",
    order_index := 0 }

def staleBackend : Backend :=
  { cleanBackend with db := { emptyDB with resume_experiences := [staleExpRow] } }

def alwaysTimeoutOp : DbM Unit := fun b => (.error { msg := "timeout" }, b)

/-! # Claim theorems -/

/-- C6: for every zero-indexed attempt number `k`, the backoff delay before
the next retry equals `min(baseDelay * 2^k, maxDelay)`, a sequence that is
monotonically non-decreasing in `k` and never exceeds the cap. -/
theorem c6_backoff_delay (k : Nat) :
    calculateDelay k
      = min (RETRY_CONFIG_baseDelay * 2 ^ k) RETRY_CONFIG_maxDelay
    ∧ calculateDelay k ≤ calculateDelay (k + 1)
    ∧ calculateDelay k ≤ RETRY_CONFIG_maxDelay := by
  refine ⟨rfl, ?_, ?_⟩
  · have hmono : RETRY_CONFIG_baseDelay * 2 ^ k
        ≤ RETRY_CONFIG_baseDelay * 2 ^ (k + 1) :=
      Nat.mul_le_mul_left _ (Nat.pow_le_pow_right (by omega) (by omega))
    exact min_le_min hmono (le_refl _)
  · exact min_le_right _ _

/-- C10: `testConnection` maps every probe outcome to a boolean (it cannot
throw): `true` exactly when the probe completed with a null error field,
`false` both when the error field is non-null and when the probe threw. -/
theorem c10_testConnection_boolean (probe : Except Failure (QueryOutcome Nat)) :
    testConnection probe = true ↔ ∃ res, probe = .ok res ∧ res.error = none := by
  cases probe with
  | ok res =>
    simp [testConnection, Option.isNone_iff_eq_none]
  | error e =>
    simp [testConnection]

/-- C9: `destroy` (and the module-level `cleanup` that wraps it) halts the
background health-check timer and is idempotent: a second or further call
from any state changes nothing. -/
theorem c9_destroy_idempotent (s : PoolSys) (env : TimerEnv) :
    destroy (destroy s env).1 (destroy s env).2 = destroy s env
    ∧ cleanup (cleanup s env).1 (cleanup s env).2 = cleanup s env
    ∧ (∀ h, s.healthCheckInterval = some h → h ∉ ((destroy s env).2).active) := by
  rcases s with ⟨pool, hci⟩
  cases hci with
  | none => exact ⟨rfl, rfl, fun h hcon => by simp at hcon⟩
  | some h0 =>
    refine ⟨?_, ?_, ?_⟩
    · simp [destroy, clearInterval, List.filter_filter]
    · simp [cleanup, destroy, clearInterval, List.filter_filter]
    · intro h hh
      have : h0 = h := by simpa using hh
      subst this
      simp [destroy, clearInterval, List.mem_filter]

/-- C9 witness: a concrete pool with an active timer handle. -/
theorem c9_destroy_idempotent_witness :
    destroy (destroy ⟨mkPool, some 7⟩ ⟨[7, 9]⟩).1
        (destroy ⟨mkPool, some 7⟩ ⟨[7, 9]⟩).2
      = destroy ⟨mkPool, some 7⟩ ⟨[7, 9]⟩
    ∧ cleanup (cleanup ⟨mkPool, some 7⟩ ⟨[7, 9]⟩).1
        (cleanup ⟨mkPool, some 7⟩ ⟨[7, 9]⟩).2
      = cleanup ⟨mkPool, some 7⟩ ⟨[7, 9]⟩
    ∧ 7 ∉ ((destroy ⟨mkPool, some 7⟩ ⟨[7, 9]⟩).2).active :=
  ⟨(c9_destroy_idempotent ⟨mkPool, some 7⟩ ⟨[7, 9]⟩).1,
   (c9_destroy_idempotent ⟨mkPool, some 7⟩ ⟨[7, 9]⟩).2.1,
   (c9_destroy_idempotent ⟨mkPool, some 7⟩ ⟨[7, 9]⟩).2.2 7 rfl⟩

/-- C8: from any pool state with the full fixed set of `poolSize = 5` handles,
`getClient` never fails and is strict round-robin: the `n`-th call returns the
handle at index `(currentIndex + n) mod 5` (a valid index), and from the
freshly constructed pool the `n`-th call returns handle `n mod 5`. -/
theorem c8_round_robin (p : Pool) (n : Nat) (hlen : p.clients.length = poolSize)
    (hidx : p.currentIndex < poolSize) :
    (nthClient p n = p.clients.getD ((p.currentIndex + n) % poolSize) 0
     ∧ (p.currentIndex + n) % poolSize < p.clients.length)
    ∧ nthClient mkPool n = n % poolSize := by
  refine ⟨nthClient_formula n p hlen hidx, ?_⟩
  have h := nthClient_formula n mkPool rfl (by decide)
  rw [h.1]
  have hzero : (mkPool.currentIndex + n) % poolSize = n % poolSize := by
    simp [mkPool]
  rw [hzero]
  set m := n % poolSize with hm
  have hm5 : m < 5 := hm ▸ Nat.mod_lt _ (by simp [poolSize])
  interval_cases m <;> rfl

/-- C8 witness: the 8th call on the fresh pool. -/
theorem c8_round_robin_witness :
    (nthClient mkPool 7
        = mkPool.clients.getD ((mkPool.currentIndex + 7) % poolSize) 0
     ∧ (mkPool.currentIndex + 7) % poolSize < mkPool.clients.length)
    ∧ nthClient mkPool 7 = 7 % poolSize :=
  c8_round_robin mkPool 7 rfl (by decide)

/-- C5: when every attempt of the wrapped operation fails, the executor
`executeWithPermanentConnection` makes exactly `maxRetries` attempts and then
rethrows the last observed error (the one raised on the final attempt). -/
theorem c5_exhausts_attempts {α : Type} (op : DbM α) (err : Backend → Failure)
    (name : String) (m : Nat) (b : Backend)
    (h : ∀ b', (op b').1 = .error (err b')) (hm : 0 < m) :
    (executeWithPermanentConnection op name m b).1
      = .error (err ((fun x => (op x).2)^[m - 1] b))
    ∧ executeAttemptCount op m b = m := by
  obtain ⟨k, rfl⟩ := Nat.exists_eq_succ_of_ne_zero (Nat.pos_iff_ne_zero.mp hm)
  constructor
  · have hl := executeWPCGo_lastErr_all_fail op err h k
      { msg := "Unknown error occurred" } b
    simpa [executeWithPermanentConnection] using hl
  · exact executeWPCGo_count_all_fail op err h (k + 1) _ b

/-- C5 witness: a sustained timeout over the default five attempts. -/
theorem c5_exhausts_attempts_witness :
    (executeWithPermanentConnection alwaysTimeoutOp "saveResume" 5
        cleanBackend).1 = .error { msg := "timeout" }
    ∧ executeAttemptCount alwaysTimeoutOp 5 cleanBackend = 5 :=
  c5_exhausts_attempts alwaysTimeoutOp (fun _ => { msg := "timeout" })
    "saveResume" 5 cleanBackend (fun _ => rfl) (by omega)

/-- C3: `withRetry` classifies every raised error: when the attempts so far
raised retryable errors and attempt `k` (with attempts remaining) raises an
error whose lowercased message matches none of the transient-network
indicators, that error is rethrown immediately — the attempt trace stops at
`k` — while a matching error leads to a further attempt `k + 1`. -/
theorem c3_retry_classification {α : Type} (op : Nat → Except Failure α)
    (errs : Nat → Failure) (k : Nat) (e : Failure)
    (hpre : ∀ j, j < k → op j = .error (errs j) ∧ isRetryable (errs j) = true)
    (hk : k < RETRY_CONFIG_maxRetries)
    (hop : op k = .error e) :
    (isRetryable e = false →
      withRetry op
        = (.error e, List.range (k + 1), (List.range k).map calculateDelay))
    ∧ (isRetryable e = true → (k + 1) ∈ (withRetry op).2.1) := by
  have hpre0 : ∀ j, 0 ≤ j → j < 0 + k →
      op j = .error (errs j) ∧ isRetryable (errs j) = true :=
    fun j _ hj => hpre j (by omega)
  have hP := withRetryGo_prefix op errs RETRY_CONFIG_maxRetries k 0 hpre0
    (by omega)
  rw [Nat.zero_add] at hP
  constructor
  · intro hnr
    have hstep : withRetryGo op RETRY_CONFIG_maxRetries k
        = (.error e, [k], []) := by
      rw [withRetryGo, hop]
      dsimp only
      rw [if_neg (by omega), dif_pos hk, if_neg (by simp [hnr])]
    rw [withRetry, hP, hstep]
    simp [← List.range_eq_range', List.range_succ]
  · intro hr
    have hstep : (withRetryGo op RETRY_CONFIG_maxRetries k).2.1
        = k :: (withRetryGo op RETRY_CONFIG_maxRetries (k + 1)).2.1 := by
      rw [withRetryGo, hop]
      dsimp only
      rw [if_neg (by omega), dif_pos hk, if_pos hr]
    obtain ⟨t, ht⟩ :=
      withRetryGo_attempts_head op RETRY_CONFIG_maxRetries (k + 1)
    rw [withRetry, hP]
    simp [hstep, ht]

/-- C3 witness: a retryable timeout on attempt 0, then a non-retryable
duplicate-key error on attempt 1, rethrown at once with the trace ending at
attempt 1; and, separately, a retryable error leading to attempt 1. -/
theorem c3_retry_classification_witness :
    (withRetry (fun j => if j = 0 then .error { msg := "Network timeout" }
        else (.error { msg := "duplicate key value" } : Except Failure Unit))
      = (.error { msg := "duplicate key value" }, List.range 2,
         (List.range 1).map calculateDelay))
    ∧ (0 + 1) ∈ (withRetry
        (fun _ => (.error { msg := "Connection refused" } : Except Failure Unit))).2.1 := by
  constructor
  · exact (c3_retry_classification
      (fun j => if j = 0 then .error { msg := "Network timeout" }
        else (.error { msg := "duplicate key value" } : Except Failure Unit))
      (fun _ => { msg := "Network timeout" }) 1 { msg := "duplicate key value" }
      (fun j hj => by
        interval_cases j
        exact ⟨rfl, by decide⟩)
      (by decide) rfl).1 (by decide)
  · exact (c3_retry_classification
      (fun _ => (.error { msg := "Connection refused" } : Except Failure Unit))
      (fun _ => { msg := "Connection refused" }) 0 { msg := "Connection refused" }
      (fun j hj => by omega)
      (by decide) rfl).2 (by decide)

/-- C7: each repository operation returns a result/error pair (by its type no
exception escapes the boundary), and whenever the error field is non-null the
data field is the neutral value: empty-string id for `saveResume`, null
resume for `getResume`, empty array for `getAllResumes` (`deleteResume`
carries no data field). -/
theorem c7_result_error_pairs (r : Resume) (rid : String) (b : Backend) :
    ((saveResume r b).1.error ≠ none → (saveResume r b).1.id = "")
    ∧ ((getResume rid b).1.error ≠ none → (getResume rid b).1.resume = none)
    ∧ ((getAllResumes b).1.error ≠ none → (getAllResumes b).1.resumes = []) := by
  refine ⟨?_, ?_, ?_⟩
  · rcases hex : executeWithPermanentConnection (saveResumeOp r) "saveResume" 5 b
      with ⟨res, b2⟩
    cases res <;> simp [saveResume, hex]
  · rcases hex : executeWithPermanentConnection (getResumeOp rid) "getResume" 5 b
      with ⟨res, b2⟩
    cases res <;> simp [getResume, hex]
  · rcases hex : executeWithPermanentConnection getAllResumesOp "getAllResumes" 5 b
      with ⟨res, b2⟩
    cases res <;> simp [getAllResumes, hex]

/-- C7 witness: a backend whose remote calls all fail makes `saveResume` and
`getAllResumes` surface an error with neutral data; `getResume` of a missing
identifier does the same on a healthy backend. -/
theorem c7_result_error_pairs_witness :
    (saveResume resumeA faultyBackend).1.id = ""
    ∧ (getResume "zzz" cleanBackend).1.resume = none
    ∧ (getAllResumes faultyBackend).1.resumes = [] :=
  ⟨(c7_result_error_pairs resumeA "zzz" faultyBackend).1 (by decide),
   (c7_result_error_pairs resumeA "zzz" cleanBackend).2.1 (by decide),
   (c7_result_error_pairs resumeA "zzz" faultyBackend).2.2 (by decide)⟩

theorem selectResumeSingle_eq_of_resumes (rid : String) (db db' : DB)
    (h : db.resumes = db'.resumes) :
    selectResumeSingle rid db = selectResumeSingle rid db' := by
  unfold selectResumeSingle
  rw [h]

theorem filter_experiences_savedDB (r : Resume) (i : String) (base : Nat)
    (nowS : String) (db : DB)
    (h : r.experience ≠ [] ∨
      db.resume_experiences.filter (fun x => decide (x.resume_id = i)) = []) :
    (savedDB r i base nowS db).resume_experiences.filter
        (fun x => decide (x.resume_id = i))
      = mkExperienceRows i base r.experience := by
  rw [savedDB_experiences]
  cases hl : r.experience with
  | nil =>
    simp only [hl, List.length_nil, gt_iff_lt, lt_self_iff_false, if_false]
    rcases h with h | h
    · exact absurd hl h
    · rw [h]
      rfl
  | cons e es =>
    have hgt : r.experience.length > 0 := by simp [hl]
    rw [hl] at hgt
    rw [if_pos hgt]
    exact filter_anti_append (fun x => x.resume_id = i) db.resume_experiences
      (mkExperienceRows i base (e :: es))
      (fun x hx => mapIdx_all (mkExperienceRow i base)
        (fun row => row.resume_id = i) (fun _ _ => rfl) 0 (e :: es) x hx)

theorem filter_education_savedDB (r : Resume) (i : String) (base : Nat)
    (nowS : String) (db : DB)
    (h : r.education ≠ [] ∨
      db.resume_education.filter (fun x => decide (x.resume_id = i)) = []) :
    (savedDB r i base nowS db).resume_education.filter
        (fun x => decide (x.resume_id = i))
      = mkEducationRows i (base + r.experience.length) r.education := by
  rw [savedDB_education]
  cases hl : r.education with
  | nil =>
    simp only [hl, List.length_nil, gt_iff_lt, lt_self_iff_false, if_false]
    rcases h with h | h
    · exact absurd hl h
    · rw [h]
      rfl
  | cons e es =>
    have hgt : r.education.length > 0 := by simp [hl]
    rw [hl] at hgt
    rw [if_pos hgt]
    exact filter_anti_append (fun x => x.resume_id = i) db.resume_education
      (mkEducationRows i (base + r.experience.length) (e :: es))
      (fun x hx => mapIdx_all (mkEducationRow i (base + r.experience.length))
        (fun row => row.resume_id = i) (fun _ _ => rfl) 0 (e :: es) x hx)

theorem filter_certifications_savedDB (r : Resume) (i : String) (base : Nat)
    (nowS : String) (db : DB)
    (h : r.certifications ≠ [] ∨
      db.resume_certifications.filter (fun x => decide (x.resume_id = i)) = []) :
    (savedDB r i base nowS db).resume_certifications.filter
        (fun x => decide (x.resume_id = i))
      = mkCertificationRows i (base + r.experience.length + r.education.length)
          r.certifications := by
  rw [savedDB_certifications]
  cases hl : r.certifications with
  | nil =>
    simp only [hl, List.length_nil, gt_iff_lt, lt_self_iff_false, if_false]
    rcases h with h | h
    · exact absurd hl h
    · rw [h]
      rfl
  | cons e es =>
    have hgt : r.certifications.length > 0 := by simp [hl]
    rw [hl] at hgt
    rw [if_pos hgt]
    exact filter_anti_append (fun x => x.resume_id = i)
      db.resume_certifications
      (mkCertificationRows i (base + r.experience.length + r.education.length)
        (e :: es))
      (fun x hx => mapIdx_all
        (mkCertificationRow i (base + r.experience.length + r.education.length))
        (fun row => row.resume_id = i) (fun _ _ => rfl) 0 (e :: es) x hx)

/-- C2 counterexample: save a resume with one child collection non-empty,
then save again under the same identifier with that collection empty — the
first save's experience rows are still stored, so the stored rows are not
"exactly the rows of the second save's collection". -/
theorem c2_wholesale_replace_counterexample :
    resumeANoChildren.experience = []
    ∧ (saveResume resumeANoChildren
          (saveResume resumeA cleanBackend).2).2.db.resume_experiences.filter
        (fun x => decide (x.resume_id = "a")) ≠ [] := by
  constructor
  · rfl
  · decide

/-- C2 (amended): a save under an existing identifier wholesale-replaces each
child collection that is non-empty in the submitted record — after the save
the stored rows scoped to the identifier are exactly the freshly inserted
rows of the submitted collection, whatever was stored before; a collection
that is empty in the submitted record is left untouched (its delete-then-
insert is skipped), so rows of an earlier save may remain. -/
theorem c2_wholesale_replace (r : Resume) (b : Backend) (i : String)
    (hf : b.faults = fun _ => none) (hid : r.id = some i) (hne : ¬ i = "") :
    (r.experience ≠ [] →
      (saveResume r b).2.db.resume_experiences.filter
          (fun x => decide (x.resume_id = i))
        = mkExperienceRows i (childBase r b) r.experience
      ∧ ((saveResume r b).2.db.resume_experiences.filter
          (fun x => decide (x.resume_id = i))).map toExperienceEntry
        = r.experience)
    ∧ (r.education ≠ [] →
      (saveResume r b).2.db.resume_education.filter
          (fun x => decide (x.resume_id = i))
        = mkEducationRows i (childBase r b + r.experience.length) r.education
      ∧ ((saveResume r b).2.db.resume_education.filter
          (fun x => decide (x.resume_id = i))).map toEducationEntry
        = r.education)
    ∧ (r.certifications ≠ [] →
      (saveResume r b).2.db.resume_certifications.filter
          (fun x => decide (x.resume_id = i))
        = mkCertificationRows
            (i) (childBase r b + r.experience.length + r.education.length)
            r.certifications
      ∧ ((saveResume r b).2.db.resume_certifications.filter
          (fun x => decide (x.resume_id = i))).map toCertificationEntry
        = r.certifications) := by
  have hi : resolveId r b = i := by simp [resolveId, hid, hne]
  obtain ⟨h1, h2, h3⟩ := saveResume_run r b hf
  rw [hi] at h2
  refine ⟨fun hnel => ?_, fun hnel => ?_, fun hnel => ?_⟩
  · have hfil := filter_experiences_savedDB r i (childBase r b) b.now b.db
      (Or.inl hnel)
    rw [h2]
    exact ⟨hfil, by rw [hfil]; exact mkExperienceRows_entries _ _ _⟩
  · have hfil := filter_education_savedDB r i (childBase r b) b.now b.db
      (Or.inl hnel)
    rw [h2]
    exact ⟨hfil, by rw [hfil]; exact mkEducationRows_entries _ _ _⟩
  · have hfil := filter_certifications_savedDB r i (childBase r b) b.now b.db
      (Or.inl hnel)
    rw [h2]
    exact ⟨hfil, by rw [hfil]; exact mkCertificationRows_entries _ _ _⟩

/-- C2 witness: saving a record with non-empty collections over a store that
already holds a stale experience row for the same identifier leaves exactly
the new rows. -/
theorem c2_wholesale_replace_witness :
    (saveResume resumeA staleBackend).2.db.resume_experiences.filter
        (fun x => decide (x.resume_id = "a"))
      = mkExperienceRows "a" (childBase resumeA staleBackend)
          resumeA.experience
    ∧ ((saveResume resumeA staleBackend).2.db.resume_experiences.filter
        (fun x => decide (x.resume_id = "a"))).map toExperienceEntry
      = resumeA.experience :=
  (c2_wholesale_replace resumeA staleBackend "a" rfl rfl (by decide)).1
    (by decide)

/-- C1 counterexample: on a backend holding a stale experience row under
identifier `a`, saving a record with identifier `a` and an empty experience
collection and reading it back does not return the record's (empty)
experience sequence — the skipped delete leaves the stale row visible. -/
theorem c1_round_trip_counterexample :
    (getResume (saveResume resumeANoChildren staleBackend).1.id
        (saveResume resumeANoChildren staleBackend).2).1.resume.map
      Resume.experience ≠ some resumeANoChildren.experience := by
  decide

/-- C1 (amended): `get(save(R).id)` returns an aggregate with R's scalar
profile fields, skills, and child sequences in order, for every fault-free
backend whose store holds at most one resume row under the resolved
identifier and — for each child collection that is empty in R — no stale
child rows under that identifier (non-empty collections are delete-then-
reinserted, so they need no such proviso). -/
theorem c1_round_trip (r : Resume) (b : Backend)
    (hf : b.faults = fun _ => none)
    (huniq : (b.db.resumes.filter fun x =>
      decide (x.id = resolveId r b)).length ≤ 1)
    (hexp : r.experience = [] → b.db.resume_experiences.filter
      (fun x => decide (x.resume_id = resolveId r b)) = [])
    (hedu : r.education = [] → b.db.resume_education.filter
      (fun x => decide (x.resume_id = resolveId r b)) = [])
    (hcert : r.certifications = [] → b.db.resume_certifications.filter
      (fun x => decide (x.resume_id = resolveId r b)) = []) :
    (saveResume r b).1.id = resolveId r b
    ∧ ∃ res, (getResume (resolveId r b) (saveResume r b).2).1.resume = some res
      ∧ res.name = r.name ∧ res.email = r.email ∧ res.phone = r.phone
      ∧ res.location = r.location ∧ res.linkedin = r.linkedin
      ∧ res.website = r.website ∧ res.summary = r.summary
      ∧ res.skills = r.skills ∧ res.experience = r.experience
      ∧ res.education = r.education
      ∧ res.certifications = r.certifications := by
  obtain ⟨h1, h2, h3⟩ := saveResume_run r b hf
  have hf1 : (saveResume r b).2.faults = fun _ => none := by rw [h3, hf]
  have hsel : selectResumeSingle (resolveId r b) ((saveResume r b).2).db
      = .ok (profileRow r (resolveId r b) b.now) := by
    rw [h2]
    rw [selectResumeSingle_eq_of_resumes (resolveId r b) _
      (upsertResumeRow (profileRow r (resolveId r b) b.now) b.db)
      (savedDB_resumes r (resolveId r b) (childBase r b) b.now b.db)]
    exact upsert_select_single _ _ _ rfl huniq
  have hget := getResume_run (resolveId r b) (saveResume r b).2
    (profileRow r (resolveId r b) b.now) hf1 hsel
  refine ⟨by rw [h1], ?_⟩
  rw [hget]
  refine ⟨_, rfl, rfl, rfl, rfl, rfl, rfl, rfl, rfl, rfl, ?_, ?_, ?_⟩
  · show (selectExperiencesOrdered (resolveId r b)
        ((saveResume r b).2).db).map toExperienceEntry = r.experience
    rw [h2, select_experiences_savedDB r (resolveId r b) (childBase r b)
      b.now b.db hexp]
    exact mkExperienceRows_entries _ _ _
  · show (selectEducationOrdered (resolveId r b)
        ((saveResume r b).2).db).map toEducationEntry = r.education
    rw [h2, select_education_savedDB r (resolveId r b) (childBase r b)
      b.now b.db hedu]
    exact mkEducationRows_entries _ _ _
  · show (selectCertificationsOrdered (resolveId r b)
        ((saveResume r b).2).db).map toCertificationEntry = r.certifications
    rw [h2, select_certifications_savedDB r (resolveId r b) (childBase r b)
      b.now b.db hcert]
    exact mkCertificationRows_entries _ _ _

/-- C1 witness: round trip of a concrete record with non-empty experience,
education, and certification sequences on a fresh backend. -/
theorem c1_round_trip_witness :
    (saveResume resumeA cleanBackend).1.id = resolveId resumeA cleanBackend
    ∧ ∃ res, (getResume (resolveId resumeA cleanBackend)
        (saveResume resumeA cleanBackend).2).1.resume = some res
      ∧ res.name = resumeA.name ∧ res.email = resumeA.email
      ∧ res.phone = resumeA.phone ∧ res.location = resumeA.location
      ∧ res.linkedin = resumeA.linkedin ∧ res.website = resumeA.website
      ∧ res.summary = resumeA.summary ∧ res.skills = resumeA.skills
      ∧ res.experience = resumeA.experience
      ∧ res.education = resumeA.education
      ∧ res.certifications = resumeA.certifications :=
  c1_round_trip resumeA cleanBackend rfl (by decide) (by decide) (by decide)
    (by decide)

/-- C4: for every child collection of length `n` submitted to save, the rows
stored for the resolved identifier carry order keys exactly `0..n-1` in the
submitted sequence order (here stated over a store with no pre-existing child
rows under that identifier, so stored rows are the inserted rows), and
`getResume` reads each collection back ordered by that key ascending, which
reproduces the submitted sequences. -/
theorem c4_dense_order_keys (r : Resume) (b : Backend)
    (hf : b.faults = fun _ => none)
    (huniq : (b.db.resumes.filter fun x =>
      decide (x.id = resolveId r b)).length ≤ 1)
    (hexp0 : b.db.resume_experiences.filter
      (fun x => decide (x.resume_id = resolveId r b)) = [])
    (hedu0 : b.db.resume_education.filter
      (fun x => decide (x.resume_id = resolveId r b)) = [])
    (hcert0 : b.db.resume_certifications.filter
      (fun x => decide (x.resume_id = resolveId r b)) = []) :
    ((saveResume r b).2.db.resume_experiences.filter
        (fun x => decide (x.resume_id = resolveId r b))).map
        (fun x => x.order_index)
      = List.range r.experience.length
    ∧ ((saveResume r b).2.db.resume_experiences.filter
        (fun x => decide (x.resume_id = resolveId r b))).map
        toExperienceEntry
      = r.experience
    ∧ ((saveResume r b).2.db.resume_education.filter
        (fun x => decide (x.resume_id = resolveId r b))).map
        (fun x => x.order_index)
      = List.range r.education.length
    ∧ ((saveResume r b).2.db.resume_education.filter
        (fun x => decide (x.resume_id = resolveId r b))).map
        toEducationEntry
      = r.education
    ∧ ((saveResume r b).2.db.resume_certifications.filter
        (fun x => decide (x.resume_id = resolveId r b))).map
        (fun x => x.order_index)
      = List.range r.certifications.length
    ∧ ((saveResume r b).2.db.resume_certifications.filter
        (fun x => decide (x.resume_id = resolveId r b))).map
        toCertificationEntry
      = r.certifications
    ∧ (getResume (resolveId r b) (saveResume r b).2).1.resume.map
        Resume.experience = some r.experience
    ∧ (getResume (resolveId r b) (saveResume r b).2).1.resume.map
        Resume.education = some r.education
    ∧ (getResume (resolveId r b) (saveResume r b).2).1.resume.map
        Resume.certifications = some r.certifications := by
  obtain ⟨h1, h2, h3⟩ := saveResume_run r b hf
  have hfe := filter_experiences_savedDB r (resolveId r b) (childBase r b)
    b.now b.db (Or.inr hexp0)
  have hfd := filter_education_savedDB r (resolveId r b) (childBase r b)
    b.now b.db (Or.inr hedu0)
  have hfc := filter_certifications_savedDB r (resolveId r b) (childBase r b)
    b.now b.db (Or.inr hcert0)
  have hf1 : (saveResume r b).2.faults = fun _ => none := by rw [h3, hf]
  have hsel : selectResumeSingle (resolveId r b) ((saveResume r b).2).db
      = .ok (profileRow r (resolveId r b) b.now) := by
    rw [h2]
    rw [selectResumeSingle_eq_of_resumes (resolveId r b) _
      (upsertResumeRow (profileRow r (resolveId r b) b.now) b.db)
      (savedDB_resumes r (resolveId r b) (childBase r b) b.now b.db)]
    exact upsert_select_single _ _ _ rfl huniq
  have hget := getResume_run (resolveId r b) (saveResume r b).2
    (profileRow r (resolveId r b) b.now) hf1 hsel
  refine ⟨?_, ?_, ?_, ?_, ?_, ?_, ?_, ?_, ?_⟩
  · rw [h2, hfe]
    exact mkExperienceRows_keys _ _ _
  · rw [h2, hfe]
    exact mkExperienceRows_entries _ _ _
  · rw [h2, hfd]
    exact mkEducationRows_keys _ _ _
  · rw [h2, hfd]
    exact mkEducationRows_entries _ _ _
  · rw [h2, hfc]
    exact mkCertificationRows_keys _ _ _
  · rw [h2, hfc]
    exact mkCertificationRows_entries _ _ _
  · rw [hget]
    show some ((selectExperiencesOrdered (resolveId r b)
        ((saveResume r b).2).db).map toExperienceEntry) = some r.experience
    rw [h2, select_experiences_savedDB r (resolveId r b) (childBase r b)
      b.now b.db (fun _ => hexp0), mkExperienceRows_entries]
  · rw [hget]
    show some ((selectEducationOrdered (resolveId r b)
        ((saveResume r b).2).db).map toEducationEntry) = some r.education
    rw [h2, select_education_savedDB r (resolveId r b) (childBase r b)
      b.now b.db (fun _ => hedu0), mkEducationRows_entries]
  · rw [hget]
    show some ((selectCertificationsOrdered (resolveId r b)
        ((saveResume r b).2).db).map toCertificationEntry)
      = some r.certifications
    rw [h2, select_certifications_savedDB r (resolveId r b) (childBase r b)
      b.now b.db (fun _ => hcert0), mkCertificationRows_entries]

/-- C4 witness: the concrete record's collections (lengths 2, 1, 1) on a
fresh backend. -/
theorem c4_dense_order_keys_witness :
    ((saveResume resumeA cleanBackend).2.db.resume_experiences.filter
        (fun x => decide (x.resume_id = resolveId resumeA cleanBackend))).map
        (fun x => x.order_index)
      = List.range resumeA.experience.length
    ∧ ((saveResume resumeA cleanBackend).2.db.resume_experiences.filter
        (fun x => decide (x.resume_id = resolveId resumeA cleanBackend))).map
        toExperienceEntry
      = resumeA.experience
    ∧ ((saveResume resumeA cleanBackend).2.db.resume_education.filter
        (fun x => decide (x.resume_id = resolveId resumeA cleanBackend))).map
        (fun x => x.order_index)
      = List.range resumeA.education.length
    ∧ ((saveResume resumeA cleanBackend).2.db.resume_education.filter
        (fun x => decide (x.resume_id = resolveId resumeA cleanBackend))).map
        toEducationEntry
      = resumeA.education
    ∧ ((saveResume resumeA cleanBackend).2.db.resume_certifications.filter
        (fun x => decide (x.resume_id = resolveId resumeA cleanBackend))).map
        (fun x => x.order_index)
      = List.range resumeA.certifications.length
    ∧ ((saveResume resumeA cleanBackend).2.db.resume_certifications.filter
        (fun x => decide (x.resume_id = resolveId resumeA cleanBackend))).map
        toCertificationEntry
      = resumeA.certifications
    ∧ (getResume (resolveId resumeA cleanBackend)
        (saveResume resumeA cleanBackend).2).1.resume.map
        Resume.experience = some resumeA.experience
    ∧ (getResume (resolveId resumeA cleanBackend)
        (saveResume resumeA cleanBackend).2).1.resume.map
        Resume.education = some resumeA.education
    ∧ (getResume (resolveId resumeA cleanBackend)
        (saveResume resumeA cleanBackend).2).1.resume.map
        Resume.certifications = some resumeA.certifications :=
  c4_dense_order_keys resumeA cleanBackend rfl (by decide) (by decide)
    (by decide) (by decide)

end ATSResume
